import Mathlib

/-!
Verification of the `logic-flow-engine` decision-tree executor.

The Python core (`engine/tree_executor.py`, `engine/node_handlers.py`) is
shallowly embedded: dictionaries become association lists with string keys,
Python values become the inductive `Value`, raised exceptions become
`Except PyErr`, and the unbounded `while` loop of `TreeExecutor.execute`
becomes a fuel-indexed function whose `none` result means the loop was still
running when the fuel ran out.
-/

namespace LogicFlow

/-- Python runtime values that can appear in the workflow data bag and in the
parsed YAML configuration.  Floats are not used by the engine and are omitted.
Dictionaries are modelled as association lists with string keys, matching the
`Dict[str, Any]` annotations of the source. -/
inductive Value where
  | none
  | bool (b : Bool)
  | int (n : Int)
  | str (s : String)
  | bytes (bs : List Nat)
  | list (xs : List Value)
  | dict (xs : List (String × Value))
deriving Repr

mutual

/-- Python `==` on the embedded values: `True`/`False` compare equal to the
integers 1/0, everything else is compared structurally within its own
constructor, and values of unrelated kinds compare unequal.  Dictionary
payloads are compared pointwise in insertion order (sufficient for every
observation made in this development). -/
def pyEq : Value → Value → Bool
  | .none, .none => true
  | .bool a, .bool b => a == b
  | .bool a, .int n => (if a then (1 : Int) else 0) == n
  | .int n, .bool b => n == (if b then (1 : Int) else 0)
  | .int a, .int b => a == b
  | .str a, .str b => a == b
  | .bytes a, .bytes b => a == b
  | .list a, .list b => pyEqList a b
  | .dict a, .dict b => pyEqPairs a b
  | _, _ => false

def pyEqList : List Value → List Value → Bool
  | [], [] => true
  | x :: xs, y :: ys => pyEq x y && pyEqList xs ys
  | _, _ => false

def pyEqPairs : List (String × Value) → List (String × Value) → Bool
  | [], [] => true
  | (k1, v1) :: xs, (k2, v2) :: ys => k1 == k2 && pyEq v1 v2 && pyEqPairs xs ys
  | _, _ => false

end

/-- Python truthiness of the embedded values. -/
def truthy : Value → Bool
  | .none => false
  | .bool b => b
  | .int n => n != 0
  | .str s => s != ""
  | .bytes bs => !bs.isEmpty
  | .list xs => !xs.isEmpty
  | .dict xs => !xs.isEmpty

/-- A Python `dict` with string keys, as an association list without duplicate
keys in any configuration or bag this development builds. -/
abbrev PyDict := List (String × Value)

/-- `d[k]` lookup, `none` when the key is absent. -/
def dget (d : PyDict) (k : String) : Option Value :=
  (d.find? (fun p => p.1 == k)).map (fun p => p.2)

/-- Python `d.get(k)`: the value, or `None` when the key is absent. -/
def dgetV (d : PyDict) (k : String) : Value :=
  (dget d k).getD .none

/-- Python `d.get(k, default)`. -/
def dgetD (d : PyDict) (k : String) (default : Value) : Value :=
  (dget d k).getD default

/-- Python `k in d` for a string key. -/
def dmem (d : PyDict) (k : String) : Bool :=
  d.any (fun p => p.1 == k)

/-- Python `d[k] = v`: overwrites in place (keeping the key's position, as
CPython dicts do) or appends a new entry at the end. -/
def dset (d : PyDict) (k : String) (v : Value) : PyDict :=
  if dmem d k then d.map (fun p => if p.1 == k then (k, v) else p)
  else d ++ [(k, v)]

/-- Lookup with a key that is itself a runtime `Value` (the configuration
fields `input_key`, `condition_key`, … are arbitrary YAML values).  A value
key matches a string key exactly when Python `==` holds between them. -/
def dgetValOpt (d : PyDict) (key : Value) : Option Value :=
  (d.find? (fun p => pyEq (.str p.1) key)).map (fun p => p.2)

/-- Python `d.get(key)` for a `Value` key. -/
def dgetVal (d : PyDict) (key : Value) : Value :=
  (dgetValOpt d key).getD .none

/-- Python `key in d` for a `Value` key. -/
def dmemVal (d : PyDict) (key : Value) : Bool :=
  d.any (fun p => pyEq (.str p.1) key)

/-- Python `d[key] = v` for a `Value` key.  The engine's bags have string
keys; configurations that use a non-string truthy `output_key` are outside
this embedding and the write is dropped. -/
def dsetVal (d : PyDict) (key : Value) (v : Value) : PyDict :=
  match key with
  | .str k => dset d k v
  | _ => d

/-- View a value as a dictionary payload.  The source only ever applies
mapping operations to values that are mappings (YAML objects); a non-mapping
value in such a position would raise `AttributeError` in Python and is
outside this embedding, where it reads as the empty mapping. -/
def asDict : Value → PyDict
  | .dict d => d
  | _ => []

/-- Python `d.get(k, {})` followed by use as a mapping
(`node_config.get("node_config", {})` in the handlers). -/
def dgetDict (d : PyDict) (k : String) : PyDict :=
  asDict (dgetV d k)

/-- The exceptions the engine can raise.  Each constructor corresponds to one
`raise` site of the source (plus `parseError`, standing for the
`FileNotFoundError` / `yaml.YAMLError` raised while obtaining the document). -/
inductive PyErr where
  | callIdRequired
  | nodeNotFound (id : Value)
  | unknownNodeType (t : Value)
  | sttInputKey (k : Value)
  | sttMissingInput (k : Value)
  | deidentifyMissingInput (k : Value)
  | llmPromptRequired
  | llmMissingInput (k : Value)
  | startNodeRequired
  | nodesRequired
  | commitShaRequired
  | saveCallIdRequired
  | saveCommitShaRequired
  | saveJsdRequired
  | saveJsdInvalid
  | parseError (msg : String)
deriving Repr

/-- The collaborator services the node handlers call
(`services/stt_service.py`, `sql_service.py`, `deidentify_service.py`,
`llm_service.py`).  They are opaque total functions here: the repository's
implementations are mocks (one even chooses its answer with `random.choice`),
and no claim depends on their internals. -/
structure Services where
  transcribe : Value → Value
  getCallMetadata : Value → Value
  deidentifyText : Value → Value
  processLlm : Value → Value → Value

/-- A node handler: node dictionary and data bag in, updated bag and
next-node id out, or a raised exception. -/
abbrev Handler := PyDict → PyDict → Except PyErr (PyDict × Value)

/-- `handle_stt_node` from `engine/node_handlers.py`: requires `input_key` to
literally equal `"audio_file"` and that key to be present in the bag (no
truthiness check on the value), calls the transcription service, stores the
result under `output_key` when that is truthy, and returns the node's
`next_node`. -/
def handle_stt_node (svc : Services) : Handler := fun node bag =>
  let config := dgetDict node "node_config"
  let input_key := dgetV config "input_key"
  let output_key := dgetV config "output_key"
  if !pyEq input_key (.str "audio_file") then
    .error (.sttInputKey input_key)
  else if !dmemVal bag input_key then
    .error (.sttMissingInput input_key)
  else
    let input_value := dgetVal bag input_key
    let result := svc.transcribe input_value
    let bag := if truthy output_key then dsetVal bag output_key result else bag
    .ok (bag, dgetV node "next_node")

/-- `handle_sql_node`: looks up metadata for the bag's `call_id`
(defaulting to `"default"`), stores it under `output_key` when truthy;
never raises. -/
def handle_sql_node (svc : Services) : Handler := fun node bag =>
  let config := dgetDict node "node_config"
  let output_key := dgetV config "output_key"
  let call_id := dgetD bag "call_id" (.str "default")
  let result := svc.getCallMetadata call_id
  let bag := if truthy output_key then dsetVal bag output_key result else bag
  .ok (bag, dgetV node "next_node")

/-- `handle_deidentify_node`: raises when the value at `input_key` is absent
or falsy, before calling the redaction service. -/
def handle_deidentify_node (svc : Services) : Handler := fun node bag =>
  let config := dgetDict node "node_config"
  let input_key := dgetV config "input_key"
  let output_key := dgetV config "output_key"
  let input_value := dgetVal bag input_key
  if !truthy input_value then
    .error (.deidentifyMissingInput input_key)
  else
    let result := svc.deidentifyText input_value
    let bag := if truthy output_key then dsetVal bag output_key result else bag
    .ok (bag, dgetV node "next_node")

/-- `handle_llm_node`: raises when `prompt` is falsy, then when the value at
`input_key` is absent or falsy, both before calling the inference service. -/
def handle_llm_node (svc : Services) : Handler := fun node bag =>
  let config := dgetDict node "node_config"
  let prompt := dgetV config "prompt"
  let input_key := dgetV config "input_key"
  let output_key := dgetV config "output_key"
  if !truthy prompt then
    .error .llmPromptRequired
  else
    let input_value := dgetVal bag input_key
    if !truthy input_value then
      .error (.llmMissingInput input_key)
    else
      let result := svc.processLlm input_value prompt
      let bag := if truthy output_key then dsetVal bag output_key result else bag
      .ok (bag, dgetV node "next_node")

/-- `handle_condition_node`: compares the bag's value at `condition_key`
(Python `dict.get`, so `None` when absent) with `condition_value` by `==`
and routes to `true_node` or `false_node`; never raises, never touches the
bag. -/
def handle_condition_node : Handler := fun node bag =>
  let config := dgetDict node "node_config"
  let condition_key := dgetV config "condition_key"
  let condition_value := dgetV config "condition_value"
  let true_node := dgetV config "true_node"
  let false_node := dgetV config "false_node"
  let actual_value := dgetVal bag condition_key
  let next_node := if pyEq actual_value condition_value then true_node else false_node
  .ok (bag, next_node)

/-- `handle_exit_node`: marks the bag with `_exit` / `_exit_status`
(status defaulting to `"success"`) and returns no next node. -/
def handle_exit_node : Handler := fun node bag =>
  let config := dgetDict node "node_config"
  let status := dgetD config "status" (.str "success")
  let bag := dset bag "_exit" (.bool true)
  let bag := dset bag "_exit_status" status
  .ok (bag, .none)

/-- `get_node_handler`: dictionary dispatch on the node-type tag; an unknown
or non-string tag raises. -/
def get_node_handler (svc : Services) (node_type : Value) : Except PyErr Handler :=
  match node_type with
  | .str s =>
    if s = "stt" then .ok (handle_stt_node svc)
    else if s = "sql" then .ok (handle_sql_node svc)
    else if s = "deidentify" then .ok (handle_deidentify_node svc)
    else if s = "llm" then .ok (handle_llm_node svc)
    else if s = "condition" then .ok handle_condition_node
    else if s = "exit" then .ok handle_exit_node
    else .error (.unknownNodeType node_type)
  | _ => .error (.unknownNodeType node_type)

/-- Days in a month of the proleptic Gregorian calendar. -/
def daysInMonth (y m : Nat) : Nat :=
  if m = 2 then (if (y % 4 = 0 && y % 100 != 0) || y % 400 = 0 then 29 else 28)
  else if m = 4 || m = 6 || m = 9 || m = 11 then 30
  else 31

/-- The numeric value of a decimal digit character. -/
def digitVal (c : Char) : Option Nat :=
  if c.isDigit then some (c.toNat - '0'.toNat) else Option.none

/-- Parse `HH:MM`, `HH:MM:SS` or `HH:MM:SS.ffff…` with range checks. -/
def parseClock (cs : List Char) : Option (Nat × Nat × Nat) :=
  match cs with
  | h1 :: h2 :: ':' :: m1 :: m2 :: rest => do
    let a ← digitVal h1; let b ← digitVal h2
    let c ← digitVal m1; let d ← digitVal m2
    let hh := a * 10 + b
    let mm := c * 10 + d
    if hh ≤ 23 ∧ mm ≤ 59 then
      match rest with
      | [] => pure (hh, mm, 0)
      | ':' :: s1 :: s2 :: rest2 => do
        let e ← digitVal s1; let f ← digitVal s2
        let ss := e * 10 + f
        if ss ≤ 59 then
          match rest2 with
          | [] => pure (hh, mm, ss)
          | '.' :: frac =>
            if !frac.isEmpty && frac.all Char.isDigit then pure (hh, mm, ss)
            else Option.none
          | _ => Option.none
        else Option.none
      | _ => Option.none
    else Option.none
  | _ => Option.none

/-- Modelled subset of `datetime.fromisoformat`: the strings
`datetime.isoformat` itself produces, i.e. `YYYY-MM-DD` optionally followed by
a `T` or space separator and `HH:MM[:SS[.ffffff]]`.  This covers every
`job_submission_datetime` the surrounding service writes
(`datetime.now().isoformat()` in `main.py`); ISO-8601 variants outside this
subset are outside the embedding.  The result is
`(year, month, day, hour, minute, second)`. -/
def fromisoformat (s : String) : Option (Nat × Nat × Nat × Nat × Nat × Nat) :=
  match s.toList with
  | y1 :: y2 :: y3 :: y4 :: '-' :: m1 :: m2 :: '-' :: d1 :: d2 :: rest => do
    let a ← digitVal y1; let b ← digitVal y2; let c ← digitVal y3; let d ← digitVal y4
    let e ← digitVal m1; let f ← digitVal m2
    let g ← digitVal d1; let i ← digitVal d2
    let y := ((a * 10 + b) * 10 + c) * 10 + d
    let mo := e * 10 + f
    let da := g * 10 + i
    if 1 ≤ mo ∧ mo ≤ 12 ∧ 1 ≤ da ∧ da ≤ daysInMonth y mo then
      match rest with
      | [] => pure (y, mo, da, 0, 0, 0)
      | sep :: t =>
        if sep = 'T' ∨ sep = ' ' then do
          let (hh, mm, ss) ← parseClock t
          pure (y, mo, da, hh, mm, ss)
        else Option.none
    else Option.none
  | _ => Option.none

/-- The state a `TreeExecutor` instance carries
(`tree_config_path`, `commit_sha`, `tree_config`). -/
structure TreeExecutor where
  tree_config_path : String
  commit_sha : Option String
  tree_config : PyDict
deriving Repr

/-- `load_tree_config`.  Obtaining the document (local file read + YAML parse,
or the GitHub fetch) is an external effect; its outcome enters as the `parsed`
argument, with `.error` standing for the `FileNotFoundError` / `yaml.YAMLError`
/ fetch failures raised before any state change.  The source assigns
`self.tree_config = config.get("tree", {})` and only then validates, so a
validation failure leaves the freshly assigned (partial) graph installed;
the function therefore returns the post-call state alongside the outcome. -/
def load_tree_config (parsed : Except PyErr PyDict) (self : TreeExecutor) :
    TreeExecutor × Except PyErr Unit :=
  match parsed with
  | .error e => (self, .error e)
  | .ok config =>
    if !truthy (dgetV (asDict (dgetV config "tree")) "start_node") then
      ({ self with tree_config := asDict (dgetV config "tree") }, .error .startNodeRequired)
    else if !truthy (dgetV (asDict (dgetV config "tree")) "nodes") then
      ({ self with tree_config := asDict (dgetV config "tree") }, .error .nodesRequired)
    else ({ self with tree_config := asDict (dgetV config "tree") }, .ok ())

/-- `TreeExecutor.__init__`: rejects a missing `commit_sha` before looking at
the configuration source at all, then loads the configuration immediately. -/
def TreeExecutor.construct (tree_config_path : String) (commit_sha : Option String)
    (parsed : Except PyErr PyDict) : Except PyErr TreeExecutor :=
  match commit_sha with
  | Option.none => .error .commitShaRequired
  | some _ =>
    match load_tree_config parsed
        { tree_config_path := tree_config_path, commit_sha := commit_sha,
          tree_config := [] } with
    | (_, .error e) => .error e
    | (self', .ok _) => .ok self'

/-- The two dictionary objects alive during one `execute` call: the caller's
`initial_workflow_data` and the private `workflow_data` copy.  Modelling them
as two separate cells makes the source's `.copy()` observable: every handler
write lands in `work`, and aliasing instead of copying would show up as
writes to `caller`. -/
structure BagHeap where
  caller : PyDict
  work : PyDict
deriving Repr

/-- One run of the `while current_node_id:` loop of `TreeExecutor.execute`,
indexed by fuel (`Option.none` = the loop was still running after `fuel`
iterations; the source has no step limit).  Also threads the list
`execution_path` and an instrumentation counter of handler invocations
performed. -/
def runLoop (svc : Services) (nodes : PyDict) :
    Nat → Value → BagHeap → List Value → Nat →
    Option (BagHeap × Nat × Except PyErr (List Value))
  | 0, _, _, _, _ => Option.none
  | fuel + 1, current, h, path, count =>
    if !truthy current then some (h, count, .ok path)
    else
      match nodes.find? (fun p => pyEq (.str p.1) current) with
      | Option.none => some (h, count, .error (.nodeNotFound current))
      | some entry =>
        match get_node_handler svc (dgetV (asDict entry.2) "type") with
        | .error e => some (h, count, .error e)
        | .ok handler =>
          match handler (asDict entry.2) h.work with
          | .error e => some (h, count + 1, .error e)
          | .ok (w', next) =>
            if truthy (dgetV w' "_exit") then
              some ({ h with work := w' }, count + 1, .ok (path ++ [current]))
            else runLoop svc nodes fuel next { h with work := w' } (path ++ [current]) (count + 1)

/-- Python `k.startswith("_")`: for the one-character prefix the source uses,
this is exactly "the first character is an underscore" (written that way
because `String.startsWith` is compiled by well-founded recursion and does
not evaluate inside proofs). -/
def isInternalKey (k : String) : Bool :=
  match k.data with
  | [] => false
  | ch :: _ => ch == '_'

/-- `_prepare_final_output`: drop the internal keys (prefix `_`). -/
def prepare_final_output (workflow_data : PyDict) : PyDict :=
  workflow_data.filter (fun p => !isInternalKey p.1)

/-- The validation prefix of `_save_results` — the part that can raise.  The
subsequent directory creation and JSON dump are filesystem effects outside
the embedding. -/
def save_results_check (workflow_data : PyDict) (commit_sha : Option String) :
    Except PyErr Unit :=
  if !truthy (dgetV workflow_data "call_id") then .error .saveCallIdRequired
  else if !(match commit_sha with | some s => s != "" | Option.none => false) then
    .error .saveCommitShaRequired
  else if !truthy (dgetV workflow_data "job_submission_datetime") then .error .saveJsdRequired
  else
    match dgetV workflow_data "job_submission_datetime" with
    | .str s => if (fromisoformat s).isSome then .ok () else .error .saveJsdInvalid
    | _ => .error .saveJsdInvalid

/-- The Execution Result built by `execute`.  `processing_time_seconds` is
wall-clock time and is omitted from the embedding. -/
structure ExecResult where
  status : Value
  execution_path : List Value
  final_output : PyDict
deriving Repr

/-- `TreeExecutor.execute`, fuel-indexed.  The returned triple carries the
final heap (for the mutation claims), the number of handler invocations
performed (instrumentation for the path-length claims), and the outcome.
At the initial `call_id` raise the private copy has not been created yet, so
its cell is empty there. -/
def execute (svc : Services) (tree : PyDict) (commit_sha : Option String)
    (fuel : Nat) (initial : PyDict) :
    Option (BagHeap × Nat × Except PyErr ExecResult) :=
  if !dmem initial "call_id" || !truthy (dgetV initial "call_id") then
    some ({ caller := initial, work := [] }, 0, .error .callIdRequired)
  else
    match runLoop svc (asDict (dgetV tree "nodes")) fuel (dgetV tree "start_node")
        { caller := initial, work := initial } [] 0 with
    | Option.none => Option.none
    | some (h, count, .error e) => some (h, count, .error e)
    | some (h, count, .ok path) =>
      match save_results_check h.work commit_sha with
      | .error e => some (h, count, .error e)
      | .ok _ =>
        some (h, count, .ok { status := dgetD h.work "_exit_status" (.str "success"),
                              execution_path := path,
                              final_output := prepare_final_output h.work })

/-- `get_tree_structure`: read-only snapshot of name, start node and node map. -/
def get_tree_structure (self : TreeExecutor) : PyDict :=
  [("tree_name", dgetD self.tree_config "name" (.str "Unknown")),
   ("start_node", dgetV self.tree_config "start_node"),
   ("nodes", dgetD self.tree_config "nodes" (.dict []))]

/-- Services instance with trivial collaborators, used for concrete runs whose
interesting behavior does not depend on collaborator output. -/
def noServices : Services :=
  { transcribe := fun _ => .none,
    getCallMetadata := fun _ => .none,
    deidentifyText := fun _ => .none,
    processLlm := fun _ _ => .none }

/-! ### Concrete fixtures used by the claims -/

/-- Scenario A graph: start node `n1`, a single exit node with status
`"done"`. -/
def exitOnlyTree : PyDict :=
  [("start_node", .str "n1"),
   ("nodes", .dict [("n1", .dict [("type", .str "exit"),
                                  ("node_config", .dict [("status", .str "done")])])])]

/-- An initial bag satisfying the executor's `call_id` and
`job_submission_datetime` requirements, with one ordinary payload key and one
internal-prefix key. -/
def okBag : PyDict :=
  [("call_id", .str "1"),
   ("job_submission_datetime", .str "2024-01-15T10:30:00"),
   ("filename", .str "testing_mock"),
   ("_scratch", .int 9)]

/-- A condition node whose `condition_value` is omitted from the
configuration (so `config.get("condition_value")` yields `None`). -/
def condValueOmittedNode : PyDict :=
  [("type", .str "condition"),
   ("node_config", .dict [("condition_key", .str "k"),
                          ("true_node", .str "T"),
                          ("false_node", .str "F")])]

/-- A bag in which the condition key `k` is absent. -/
def bagWithoutK : PyDict := [("x", .int 1)]

/-- An stt node wired exactly as the repository's own test fixture uses it. -/
def sttFixtureNode : PyDict :=
  [("type", .str "stt"),
   ("node_config", .dict [("input_key", .str "audio_file"),
                          ("output_key", .str "transcribed_text")]),
   ("next_node", .str "n2")]

/-- A bag whose `audio_file` is present but falsy (the empty byte string the
repository's own test passes). -/
def emptyAudioBag : PyDict := [("audio_file", .bytes []), ("call_id", .str "1")]

/-- An executor with a valid graph already installed. -/
def loadedExecutor : TreeExecutor :=
  { tree_config_path := "tree.yaml", commit_sha := some "abc",
    tree_config := exitOnlyTree }

/-- A parsed document whose `tree` object lacks `start_node` (and `nodes`). -/
def docMissingStart : PyDict := [("tree", .dict [("name", .str "broken")])]

/-- Graph for the termination claim: the start condition either enters the
self-loop `c` (an sql node whose `next_node` is itself) or goes to the exit
`e`, depending on the bag's `k`. -/
def loopTree : PyDict :=
  [("start_node", .str "s"),
   ("nodes", .dict
     [("s", .dict [("type", .str "condition"),
                   ("node_config", .dict [("condition_key", .str "k"),
                                          ("condition_value", .str "x"),
                                          ("true_node", .str "c"),
                                          ("false_node", .str "e")])]),
      ("c", .dict [("type", .str "sql"), ("next_node", .str "c")]),
      ("e", .dict [("type", .str "exit"),
                   ("node_config", .dict [("status", .str "done")])])])]

/-- A bag that takes the false branch of `loopTree`'s start condition. -/
def avoidLoopBag : PyDict :=
  [("call_id", .str "1"),
   ("job_submission_datetime", .str "2024-01-15T10:30:00"),
   ("k", .str "y")]

/-- A bag that takes the true branch of `loopTree`'s start condition, into
the inescapable self-loop. -/
def enterLoopBag : PyDict :=
  [("call_id", .str "1"),
   ("job_submission_datetime", .str "2024-01-15T10:30:00"),
   ("k", .str "x")]

/-- Graph for the dangling-reference claim: the condition's `true_node`
names a node id that does not exist. -/
def danglingTree : PyDict :=
  [("start_node", .str "s"),
   ("nodes", .dict
     [("s", .dict [("type", .str "condition"),
                   ("node_config", .dict [("condition_key", .str "k"),
                                          ("condition_value", .str "x"),
                                          ("true_node", .str "ghost"),
                                          ("false_node", .str "e")])]),
      ("e", .dict [("type", .str "exit"),
                   ("node_config", .dict [("status", .str "done")])])])]

/-- The `danglingTree` wrapped as a parsed workflow document. -/
def danglingDoc : PyDict := [("tree", .dict danglingTree)]

/-! ### Graph-shape observations for the termination claim -/

/-- The node ids a `Value` can contribute as a traversal target. -/
def strIds : Value → List String
  | .str s => [s]
  | _ => []

/-- The node ids node `id`'s configuration references as possible next nodes
(`next_node`, `true_node`, `false_node`). -/
def successorIds (nodes : PyDict) (id : String) : List String :=
  match dget nodes id with
  | some (.dict node) =>
    let cfg := dgetDict node "node_config"
    strIds (dgetV node "next_node") ++ strIds (dgetV cfg "true_node")
      ++ strIds (dgetV cfg "false_node")
  | _ => []

/-- `b` lies within `n` reference steps of `a`. -/
def reachableWithin (nodes : PyDict) : Nat → String → String → Bool
  | 0, a, b => a == b
  | n + 1, a, b =>
    a == b || (successorIds nodes a).any (fun c => reachableWithin nodes n c b)

/-- An sql node's `output_key` cannot disturb the loop's exit check: absent,
or a string other than `"_exit"`. -/
def safeSqlOut : Value → Bool
  | .none => true
  | .str s => s != "_exit"
  | _ => false

/-- Node `id` keeps the traversal inside the id set `S`: it exists and is an
sql node (with harmless output key) whose `next_node` stays in `S`, or a
condition node both of whose branches stay in `S`.  Such nodes never raise,
never set the exit flag, and never return a falsy next node. -/
def trappedNode (nodes : PyDict) (S : List String) (id : String) : Bool :=
  match dget nodes id with
  | some (.dict node) =>
    let cfg := dgetDict node "node_config"
    match dgetV node "type" with
    | .str t =>
      if t = "sql" then
        safeSqlOut (dgetV cfg "output_key") &&
          (match dgetV node "next_node" with | .str n => S.contains n | _ => false)
      else if t = "condition" then
        (match dgetV cfg "true_node" with | .str n => S.contains n | _ => false) &&
          (match dgetV cfg "false_node" with | .str n => S.contains n | _ => false)
      else false
    | _ => false
  | _ => false

/-- A nonempty set of node ids the traversal can never leave: every id is
nonempty (so the loop guard stays true) and every node keeps the traversal
inside the set. -/
def trapped (nodes : PyDict) (S : List String) : Bool :=
  !S.isEmpty && S.all (fun id => id != "" && trappedNode nodes S id)

/-- The node map of `loopTree`. -/
def loopNodes : PyDict := asDict (dgetV loopTree "nodes")

/-- A graph whose start node already sits inside an inescapable self-loop. -/
def selfLoopTree : PyDict :=
  [("start_node", .str "c"),
   ("nodes", .dict [("c", .dict [("type", .str "sql"), ("next_node", .str "c")])])]

/-- A bag with a valid `call_id` but no `job_submission_datetime`. -/
def bagNoJsd : PyDict := [("call_id", .str "1")]

/-! ### Dictionary lemmas -/

theorem dmem_false_find? {d : PyDict} {k : String} (h : dmem d k = false) :
    d.find? (fun p => p.1 == k) = Option.none :=
  List.find?_eq_none.mpr (fun x hx hpx => List.any_eq_false.mp h x hx hpx)

theorem find?_map_set_self (d : PyDict) (k : String) (v : Value) (hmem : dmem d k = true) :
    (d.map (fun p => if p.1 == k then (k, v) else p)).find? (fun p => p.1 == k)
      = some (k, v) := by
  induction d with
  | nil => simp [dmem] at hmem
  | cons p d ih =>
    simp only [List.map_cons]
    by_cases hp : (p.1 == k) = true
    · rw [if_pos hp]
      simp [List.find?_cons]
    · rw [if_neg hp]
      have hpf : (p.1 == k) = false := by rwa [Bool.not_eq_true] at hp
      simp only [List.find?_cons, hpf]
      apply ih
      rcases List.any_eq_true.mp hmem with ⟨x, hx, hpx⟩
      cases hx with
      | head => exact absurd hpx hp
      | tail _ hx' => exact List.any_eq_true.mpr ⟨x, hx', hpx⟩

theorem find?_map_set_ne (d : PyDict) (k k' : String) (v : Value)
    (hkk : (k == k') = false) :
    (d.map (fun p => if p.1 == k then (k, v) else p)).find? (fun p => p.1 == k')
      = d.find? (fun p => p.1 == k') := by
  induction d with
  | nil => rfl
  | cons p d ih =>
    simp only [List.map_cons]
    by_cases hp : (p.1 == k) = true
    · have hps : p.1 = k := by exact eq_of_beq hp
      have hp' : (p.1 == k') = false := by rw [hps]; exact hkk
      rw [if_pos hp]
      simp only [List.find?_cons, hkk, hp']
      exact ih
    · rw [if_neg hp]
      cases hq : (p.1 == k') with
      | true => simp only [List.find?_cons, hq]
      | false =>
        simp only [List.find?_cons, hq]
        exact ih

theorem dget_dset_self (d : PyDict) (k : String) (v : Value) :
    dget (dset d k v) k = some v := by
  unfold dset dget
  cases hmem : dmem d k with
  | true =>
    simp only [hmem, if_true]
    rw [find?_map_set_self d k v hmem]
    rfl
  | false =>
    simp only [hmem, Bool.false_eq_true, if_false]
    rw [List.find?_append, dmem_false_find? hmem]
    simp

theorem dget_dset_ne (d : PyDict) (k k' : String) (v : Value)
    (hkk : (k == k') = false) :
    dget (dset d k v) k' = dget d k' := by
  unfold dset dget
  cases hmem : dmem d k with
  | true =>
    simp only [hmem, if_true]
    rw [find?_map_set_ne d k k' v hkk]
  | false =>
    simp only [hmem, Bool.false_eq_true, if_false]
    rw [List.find?_append]
    have h1 : List.find? (fun p => p.1 == k') [(k, v)] = Option.none := by
      simp [hkk]
    rw [h1]
    cases d.find? (fun p => p.1 == k') <;> rfl

theorem dgetV_dset_ne (d : PyDict) (k k' : String) (v : Value)
    (hkk : (k == k') = false) :
    dgetV (dset d k v) k' = dgetV d k' := by
  unfold dgetV
  rw [dget_dset_ne d k k' v hkk]

theorem dgetValOpt_eq_none_of_not_mem {d : PyDict} {key : Value}
    (h : dmemVal d key = false) : dgetValOpt d key = Option.none := by
  unfold dgetValOpt
  rw [List.find?_eq_none.mpr (fun x hx hpx => List.any_eq_false.mp h x hx hpx)]
  rfl

/-! ### Final-output lemmas -/

theorem filter_map_set_internal (d : PyDict) (s : String) (v : Value)
    (hs : isInternalKey s = true) :
    (d.map (fun p => if p.1 == s then (s, v) else p)).filter (fun p => !isInternalKey p.1)
      = d.filter (fun p => !isInternalKey p.1) := by
  induction d with
  | nil => rfl
  | cons p d ih =>
    simp only [List.map_cons, List.filter_cons]
    by_cases hp : (p.1 == s) = true
    · have hps : p.1 = s := by exact eq_of_beq hp
      rw [if_pos hp]
      simp only [hps, hs, Bool.not_true, Bool.false_eq_true, if_false]
      exact ih
    · rw [if_neg hp]
      cases h2 : (!isInternalKey p.1) <;> simp only [Bool.false_eq_true, if_false, if_true]
      · exact ih
      · rw [ih]

theorem prepare_final_output_dset_internal (d : PyDict) (s : String) (v : Value)
    (hs : isInternalKey s = true) :
    prepare_final_output (dset d s v) = prepare_final_output d := by
  unfold prepare_final_output dset
  cases hmem : dmem d s with
  | true =>
    simp only [hmem, if_true]
    exact filter_map_set_internal d s v hs
  | false =>
    simp only [hmem, Bool.false_eq_true, if_false]
    rw [List.filter_append]
    simp [hs]

/-! ### Traversal-loop invariants -/

theorem runLoop_caller (svc : Services) (nodes : PyDict) :
    ∀ fuel current h path count out,
      runLoop svc nodes fuel current h path count = some out →
      out.1.caller = h.caller := by
  intro fuel
  induction fuel with
  | zero =>
    intro c h path count out hE
    simp [runLoop] at hE
  | succ n ih =>
    intro c h path count out hE
    simp only [runLoop] at hE
    split at hE
    · simp only [Option.some.injEq] at hE
      rw [← hE]
    · split at hE
      · simp only [Option.some.injEq] at hE
        rw [← hE]
      · split at hE
        · simp only [Option.some.injEq] at hE
          rw [← hE]
        · split at hE
          · simp only [Option.some.injEq] at hE
            rw [← hE]
          · split at hE
            · simp only [Option.some.injEq] at hE
              rw [← hE]
            · have hrec := ih _ _ _ _ out hE
              exact hrec

theorem runLoop_path_inv (svc : Services) (nodes : PyDict) :
    ∀ fuel current h path count h' count' p,
      runLoop svc nodes fuel current h path count = some (h', count', .ok p) →
      ∃ t, p = path ++ t ∧ count' = count + t.length ∧
        (truthy current = true → ∃ t', t = current :: t') := by
  intro fuel
  induction fuel with
  | zero =>
    intro c h path count h' count' p hE
    simp [runLoop] at hE
  | succ n ih =>
    intro c h path count h' count' p hE
    simp only [runLoop] at hE
    split at hE
    · rename_i hc
      simp only [Option.some.injEq, Prod.mk.injEq, Except.ok.injEq] at hE
      obtain ⟨-, rfl, rfl⟩ := hE
      refine ⟨[], (List.append_nil path).symm, by simp, ?_⟩
      intro htc
      rw [htc] at hc
      cases hc
    · split at hE
      · simp at hE
      · split at hE
        · simp at hE
        · split at hE
          · simp at hE
          · split at hE
            · simp only [Option.some.injEq, Prod.mk.injEq, Except.ok.injEq] at hE
              obtain ⟨-, rfl, rfl⟩ := hE
              exact ⟨[c], rfl, by simp, fun _ => ⟨[], rfl⟩⟩
            · obtain ⟨t0, hp, hcnt, -⟩ := ih _ _ _ _ _ _ _ hE
              refine ⟨c :: t0, ?_, ?_, fun _ => ⟨t0, rfl⟩⟩
              · rw [hp, List.append_assoc, List.singleton_append]
              · rw [hcnt, List.length_cons]
                omega

theorem beq_false_of_bne {a b : String} (h : (a != b) = true) : (a == b) = false :=
  beq_eq_false_iff_ne.mpr (bne_iff_ne.mp h)

theorem handle_sql_node_eq (svc : Services) (node bag : PyDict) :
    handle_sql_node svc node bag =
      .ok (if truthy (dgetV (dgetDict node "node_config") "output_key") then
             dsetVal bag (dgetV (dgetDict node "node_config") "output_key")
               (svc.getCallMetadata (dgetD bag "call_id" (.str "default")))
           else bag,
           dgetV node "next_node") := rfl

theorem handle_condition_node_eq (node bag : PyDict) :
    handle_condition_node node bag =
      .ok (bag,
        if pyEq (dgetVal bag (dgetV (dgetDict node "node_config") "condition_key"))
            (dgetV (dgetDict node "node_config") "condition_value")
        then dgetV (dgetDict node "node_config") "true_node"
        else dgetV (dgetDict node "node_config") "false_node") := rfl

theorem safeSqlOut_cases {v : Value} (h : safeSqlOut v = true) :
    v = .none ∨ ∃ s, v = .str s ∧ (s != "_exit") = true := by
  cases v with
  | none => exact Or.inl rfl
  | str s => exact Or.inr ⟨s, rfl, h⟩
  | bool b => exact Bool.noConfusion h
  | int n => exact Bool.noConfusion h
  | bytes bs => exact Bool.noConfusion h
  | list xs => exact Bool.noConfusion h
  | dict xs => exact Bool.noConfusion h

theorem runLoop_trapped_aux (svc : Services) (nodes : PyDict) (S : List String)
    (hT : trapped nodes S = true) :
    ∀ fuel c h path count, c ∈ S → truthy (dgetV h.work "_exit") = false →
      runLoop svc nodes fuel (.str c) h path count = Option.none := by
  have hall : ∀ c ∈ S, (c != "") = true ∧ trappedNode nodes S c = true := by
    intro c hc
    have h1 : S.all (fun id => id != "" && trappedNode nodes S id) = true :=
      ((Bool.and_eq_true _ _) ▸ hT).2
    exact (Bool.and_eq_true _ _) ▸ List.all_eq_true.mp h1 c hc
  intro fuel
  induction fuel with
  | zero => intro c h path count hc hex; rfl
  | succ n ih =>
    intro c h path count hc hex
    obtain ⟨hne, htn⟩ := hall c hc
    have htc : truthy (Value.str c) = true := hne
    unfold trappedNode at htn
    split at htn
    rotate_left
    · exact Bool.noConfusion htn
    rename_i node heq
    split at htn
    rotate_left
    · exact Bool.noConfusion htn
    rename_i t ht
    unfold dget at heq
    obtain ⟨entry0, hfind, hsnd⟩ := Option.map_eq_some'.mp heq
    have hpred : (fun p : String × Value => pyEq (.str p.1) (Value.str c))
        = (fun p : String × Value => p.1 == c) := rfl
    simp only [runLoop, htc, Bool.not_true, Bool.false_eq_true, if_false, hpred, hfind,
      hsnd, asDict, ht]
    by_cases hts : t = "sql"
    · subst hts
      rw [if_pos rfl] at htn
      rw [Bool.and_eq_true] at htn
      obtain ⟨hout, hnx⟩ := htn
      split at hnx
      rotate_left
      · exact Bool.noConfusion hnx
      rename_i n1 hnext
      rw [show get_node_handler svc (Value.str "sql") = Except.ok (handle_sql_node svc) from rfl]
      simp only [handle_sql_node_eq, hnext]
      have hn1 : n1 ∈ S := by simpa using hnx
      rcases safeSqlOut_cases hout with hv | ⟨s, hv, hs⟩
      · rw [hv]
        simp only [show truthy Value.none = false from rfl, Bool.false_eq_true, if_false,
          hex]
        exact ih n1 { h with work := h.work } (path ++ [Value.str c]) (count + 1) hn1 hex
      · rw [hv]
        cases hse : (s != "") with
        | false =>
          simp only [show truthy (Value.str s) = (s != "") from rfl, hse,
            Bool.false_eq_true, if_false, hex]
          exact ih n1 { h with work := h.work } (path ++ [Value.str c]) (count + 1) hn1 hex
        | true =>
          have hex' : truthy (dgetV (dset h.work s
              (svc.getCallMetadata (dgetD h.work "call_id" (.str "default")))) "_exit") = false := by
            rw [dgetV_dset_ne _ _ _ _ (beq_false_of_bne hs)]
            exact hex
          simp only [show truthy (Value.str s) = (s != "") from rfl, hse, if_true, dsetVal,
            hex', Bool.false_eq_true, if_false]
          exact ih n1 _ (path ++ [Value.str c]) (count + 1) hn1 hex'
    · by_cases htcd : t = "condition"
      · subst htcd
        rw [if_neg hts, if_pos rfl] at htn
        rw [Bool.and_eq_true] at htn
        obtain ⟨hta, htb⟩ := htn
        split at hta
        rotate_left
        · exact Bool.noConfusion hta
        rename_i na hna
        split at htb
        rotate_left
        · exact Bool.noConfusion htb
        rename_i nb hnb
        rw [show get_node_handler svc (Value.str "condition") = Except.ok handle_condition_node
          from rfl]
        simp only [handle_condition_node_eq, hna, hnb, hex, Bool.false_eq_true, if_false]
        have hA : na ∈ S := by simpa using hta
        have hB : nb ∈ S := by simpa using htb
        split
        · exact ih na { h with work := h.work } (path ++ [Value.str c]) (count + 1) hA hex
        · exact ih nb { h with work := h.work } (path ++ [Value.str c]) (count + 1) hB hex
      · rw [if_neg hts, if_neg htcd] at htn
        exact Bool.noConfusion htn

theorem fromisoformat_ne_empty {j : String} (h : (fromisoformat j).isSome = true) :
    (j != "") = true := by
  by_cases hj : j = ""
  · subst hj
    exact absurd h (by decide)
  · exact bne_iff_ne.mpr hj

/-! ### Loader lemmas -/

theorem load_ok_tree_config (self : TreeExecutor) (config : PyDict) :
    (load_tree_config (.ok config) self).1.tree_config = asDict (dgetV config "tree") := by
  unfold load_tree_config
  cases h1 : truthy (dgetV (asDict (dgetV config "tree")) "start_node") with
  | false => simp [h1]
  | true =>
    cases h2 : truthy (dgetV (asDict (dgetV config "tree")) "nodes") with
    | false => simp [h1, h2]
    | true => simp [h1, h2]

theorem load_ok_iff (self : TreeExecutor) (config : PyDict) :
    (load_tree_config (.ok config) self).2 = .ok () ↔
      truthy (dgetV (asDict (dgetV config "tree")) "start_node") = true
      ∧ truthy (dgetV (asDict (dgetV config "tree")) "nodes") = true := by
  unfold load_tree_config
  cases h1 : truthy (dgetV (asDict (dgetV config "tree")) "start_node") with
  | false => simp [h1]
  | true =>
    cases h2 : truthy (dgetV (asDict (dgetV config "tree")) "nodes") with
    | false => simp [h1, h2]
    | true => simp [h1, h2]

/-! ### Claim C1 -/

/-- C1, counterexample: a condition node whose `condition_value` is omitted
(so the configuration lookup yields `None`) routes a bag *missing* the
condition key to `true_node`, not to `false_node` as the claim requires. -/
theorem condition_missing_key_true_branch :
    dmemVal bagWithoutK (dgetV (dgetDict condValueOmittedNode "node_config") "condition_key")
        = false
  ∧ handle_condition_node condValueOmittedNode bagWithoutK = .ok (bagWithoutK, .str "T")
  ∧ dgetV (dgetDict condValueOmittedNode "node_config") "false_node" = .str "F"
  ∧ Value.str "T" ≠ Value.str "F" := by
  refine ⟨rfl, rfl, rfl, fun hEq => absurd (Value.str.inj hEq) (by decide)⟩

/-- C1 (amended): the condition handler never raises and never changes the
bag; it routes to `true_node` exactly when the bag's value at
`condition_key` — `None` when the key is absent — is Python-equal to
`condition_value`, and to `false_node` otherwise.  In particular a missing
key branches to `false_node` whenever `condition_value` is not equal to
`None`. -/
theorem condition_node_routing :
    (∀ node bag, handle_condition_node node bag =
       .ok (bag,
         if pyEq ((dgetValOpt bag (dgetV (dgetDict node "node_config") "condition_key")).getD
               Value.none)
             (dgetV (dgetDict node "node_config") "condition_value")
         then dgetV (dgetDict node "node_config") "true_node"
         else dgetV (dgetDict node "node_config") "false_node"))
  ∧ (∀ node bag,
       dmemVal bag (dgetV (dgetDict node "node_config") "condition_key") = false →
       pyEq Value.none (dgetV (dgetDict node "node_config") "condition_value") = false →
       handle_condition_node node bag =
         .ok (bag, dgetV (dgetDict node "node_config") "false_node")) := by
  constructor
  · intro node bag
    rfl
  · intro node bag hmem hcv
    rw [handle_condition_node_eq]
    have hval : dgetVal bag (dgetV (dgetDict node "node_config") "condition_key")
        = Value.none := by
      unfold dgetVal
      rw [dgetValOpt_eq_none_of_not_mem hmem]
      rfl
    rw [hval, hcv]
    simp

/-- C1 witness: the routing theorem applied to a concrete condition node and
a bag missing the key. -/
theorem condition_node_routing_witness :
    handle_condition_node
      [("type", .str "condition"),
       ("node_config", .dict [("condition_key", .str "k"), ("condition_value", .str "x"),
                              ("true_node", .str "c"), ("false_node", .str "e")])]
      bagWithoutK = .ok (bagWithoutK, .str "e") :=
  condition_node_routing.2 _ bagWithoutK (by decide) (by decide)

/-! ### Claim C2 -/

/-- C2, counterexample: executed with the empty initial bag, the exit-only
graph does not return a `"done"` result — `execute` raises because `call_id`
is missing, refuting "with any initial data bag". -/
theorem exit_only_requires_call_id :
    execute noServices exitOnlyTree (some "abc") 3 ([] : PyDict)
      = some ({ caller := [], work := [] }, 0, .error .callIdRequired) := rfl

/-- C2 (amended): on the exit-only graph, any initial bag that satisfies the
executor's own preconditions — a present truthy `call_id`, and a
`job_submission_datetime` string accepted by `datetime.fromisoformat` (needed
by the result-saving step) — yields status `"done"`, execution path
`["n1"]`, and final output equal to the initial bag with the
internal-prefix keys removed. -/
theorem exit_only_scenario (svc : Services) (s : String) (fuel : Nat) (initial : PyDict)
    (hmem : dmem initial "call_id" = true)
    (hcid : truthy (dgetV initial "call_id") = true)
    (hsha : (s != "") = true)
    (hjsd : ∃ j, dgetV initial "job_submission_datetime" = Value.str j
        ∧ (fromisoformat j).isSome = true) :
    execute svc exitOnlyTree (some s) (fuel + 1) initial
      = some ({ caller := initial,
                work := dset (dset initial "_exit" (.bool true)) "_exit_status" (.str "done") },
              1,
              .ok { status := .str "done",
                    execution_path := [.str "n1"],
                    final_output := prepare_final_output initial }) := by
  obtain ⟨j, hj, hjv⟩ := hjsd
  have hexit : dgetV (dset (dset initial "_exit" (.bool true)) "_exit_status" (.str "done"))
      "_exit" = Value.bool true := by
    rw [dgetV_dset_ne _ _ _ _ (by decide)]
    unfold dgetV
    rw [dget_dset_self]
    rfl
  have hstatus : dgetD (dset (dset initial "_exit" (.bool true)) "_exit_status" (.str "done"))
      "_exit_status" (.str "success") = Value.str "done" := by
    unfold dgetD
    rw [dget_dset_self]
    rfl
  have hcall : dgetV (dset (dset initial "_exit" (.bool true)) "_exit_status" (.str "done"))
      "call_id" = dgetV initial "call_id" := by
    rw [dgetV_dset_ne _ _ _ _ (by decide), dgetV_dset_ne _ _ _ _ (by decide)]
  have hjsd2 : dgetV (dset (dset initial "_exit" (.bool true)) "_exit_status" (.str "done"))
      "job_submission_datetime" = Value.str j := by
    rw [dgetV_dset_ne _ _ _ _ (by decide), dgetV_dset_ne _ _ _ _ (by decide), hj]
  have hout : prepare_final_output (dset (dset initial "_exit" (.bool true)) "_exit_status"
      (.str "done")) = prepare_final_output initial := by
    rw [prepare_final_output_dset_internal _ _ _ (by decide),
      prepare_final_output_dset_internal _ _ _ (by decide)]
  have hsave : save_results_check (dset (dset initial "_exit" (.bool true)) "_exit_status"
      (.str "done")) (some s) = .ok () := by
    unfold save_results_check
    rw [hcall, hjsd2]
    simp only [hcid, Bool.not_true, Bool.false_eq_true, if_false, hsha,
      show truthy (Value.str j) = (j != "") from rfl, fromisoformat_ne_empty hjv, hjv,
      if_true]
  simp only [execute, hmem, hcid, Bool.not_true, Bool.or_self, Bool.false_eq_true, if_false]
  rw [show dgetV exitOnlyTree "start_node" = Value.str "n1" from rfl]
  simp only [runLoop, show (!truthy (Value.str "n1")) = false from rfl, Bool.false_eq_true,
    if_false]
  rw [show (asDict (dgetV exitOnlyTree "nodes")).find?
        (fun p => pyEq (Value.str p.1) (Value.str "n1"))
      = some ("n1", Value.dict [("type", Value.str "exit"),
                                ("node_config", Value.dict [("status", Value.str "done")])])
    from rfl]
  simp only [show get_node_handler svc (dgetV (asDict (Value.dict
      [("type", Value.str "exit"), ("node_config", Value.dict [("status", Value.str "done")])]))
      "type") = Except.ok handle_exit_node from rfl]
  simp only [show ∀ bag : PyDict, handle_exit_node (asDict (Value.dict
      [("type", Value.str "exit"), ("node_config", Value.dict [("status", Value.str "done")])]))
      bag = Except.ok (dset (dset bag "_exit" (.bool true)) "_exit_status" (.str "done"),
        Value.none) from fun bag => rfl]
  simp only [hexit, show truthy (Value.bool true) = true from rfl, if_true]
  simp only [hsave, hstatus, hout, List.nil_append]

/-- C2 witness: the scenario theorem applied to a concrete conforming bag. -/
theorem exit_only_scenario_witness :
    execute noServices exitOnlyTree (some "abc") 3 okBag
      = some ({ caller := okBag,
                work := dset (dset okBag "_exit" (.bool true)) "_exit_status" (.str "done") },
              1,
              .ok { status := .str "done",
                    execution_path := [.str "n1"],
                    final_output := prepare_final_output okBag }) :=
  exit_only_scenario noServices "abc" 2 okBag (by decide) (by decide) (by decide)
    ⟨"2024-01-15T10:30:00", rfl, by decide⟩

/-! ### Claim C3 -/

/-- C3, counterexample: loading a document whose `tree` lacks `start_node`
raises the structural error, but the executor's previously installed graph
is *not* left unchanged — `tree_config` now holds the partial tree, because
the source assigns before validating. -/
theorem load_installs_partial_graph :
    (load_tree_config (.ok docMissingStart) loadedExecutor).2 = .error .startNodeRequired
  ∧ (load_tree_config (.ok docMissingStart) loadedExecutor).1.tree_config
      = [("name", .str "broken")]
  ∧ (load_tree_config (.ok docMissingStart) loadedExecutor).1.tree_config
      ≠ loadedExecutor.tree_config := by
  refine ⟨rfl, rfl, ?_⟩
  intro hEq
  have h1 : dget ((load_tree_config (.ok docMissingStart) loadedExecutor).1.tree_config)
      "name" = some (.str "broken") := rfl
  rw [hEq] at h1
  exact Option.noConfusion (h1.symm.trans (rfl : dget loadedExecutor.tree_config "name"
    = Option.none)).symm

/-- C3 (amended): `load_tree_config` fails with a structural error exactly
when the parsed tree lacks a truthy `start_node` or `nodes`, and a failure
in obtaining or parsing the document leaves the executor unchanged; but a
*validation* failure leaves the freshly assigned partial tree installed —
`tree_config` is replaced with `config.get("tree", {})` before validation
runs, so a partially validated graph *is* installed on that path. -/
theorem load_validation_spec :
    (∀ self e, load_tree_config (.error e) self = (self, .error e))
  ∧ (∀ self config,
       (load_tree_config (.ok config) self).1.tree_config = asDict (dgetV config "tree"))
  ∧ (∀ self config,
       (load_tree_config (.ok config) self).2 = .ok () ↔
         truthy (dgetV (asDict (dgetV config "tree")) "start_node") = true
         ∧ truthy (dgetV (asDict (dgetV config "tree")) "nodes") = true) :=
  ⟨fun _ _ => rfl, load_ok_tree_config, load_ok_iff⟩

/-- C3 witness: the loader specification applied to a concrete document that
validates successfully. -/
theorem load_validation_spec_witness :
    (load_tree_config (.ok danglingDoc) loadedExecutor).2 = .ok () :=
  (load_validation_spec.2.2 loadedExecutor danglingDoc).mpr ⟨by decide, by decide⟩

/-! ### Claim C4 -/

/-- C4, counterexample: the stt handler does *not* raise on a
present-but-falsy input — the empty byte string the repository's own test
passes flows straight to the transcription collaborator and execution
continues. -/
theorem stt_accepts_falsy_present_input :
    dmemVal emptyAudioBag (.str "audio_file") = true
  ∧ truthy (dgetVal emptyAudioBag (.str "audio_file")) = false
  ∧ handle_stt_node noServices sttFixtureNode emptyAudioBag
      = .ok ([("audio_file", .bytes []), ("call_id", .str "1"),
              ("transcribed_text", Value.none)], .str "n2") :=
  ⟨rfl, rfl, rfl⟩

/-- C4 (amended): `deidentify` and `llm` raise — before any collaborator
call, as shown by the result being the same for every `Services` instance —
when the value at `input_key` is absent or falsy; `stt` raises only when the
key is *absent*: a present-but-falsy value is passed to the transcription
service and the handler returns normally. -/
theorem handler_input_checks :
    (∀ svc node bag,
       truthy (dgetVal bag (dgetV (dgetDict node "node_config") "input_key")) = false →
       handle_deidentify_node svc node bag
         = .error (.deidentifyMissingInput (dgetV (dgetDict node "node_config") "input_key")))
  ∧ (∀ svc node bag,
       truthy (dgetV (dgetDict node "node_config") "prompt") = true →
       truthy (dgetVal bag (dgetV (dgetDict node "node_config") "input_key")) = false →
       handle_llm_node svc node bag
         = .error (.llmMissingInput (dgetV (dgetDict node "node_config") "input_key")))
  ∧ (∀ svc node bag,
       pyEq (dgetV (dgetDict node "node_config") "input_key") (.str "audio_file") = true →
       dmemVal bag (dgetV (dgetDict node "node_config") "input_key") = false →
       handle_stt_node svc node bag
         = .error (.sttMissingInput (dgetV (dgetDict node "node_config") "input_key")))
  ∧ (∀ svc node bag,
       pyEq (dgetV (dgetDict node "node_config") "input_key") (.str "audio_file") = true →
       dmemVal bag (dgetV (dgetDict node "node_config") "input_key") = true →
       handle_stt_node svc node bag
         = .ok (if truthy (dgetV (dgetDict node "node_config") "output_key") then
                  dsetVal bag (dgetV (dgetDict node "node_config") "output_key")
                    (svc.transcribe
                      (dgetVal bag (dgetV (dgetDict node "node_config") "input_key")))
                else bag,
                dgetV node "next_node")) := by
  refine ⟨?_, ?_, ?_, ?_⟩
  · intro svc node bag h
    simp only [handle_deidentify_node, h, Bool.not_false, if_true]
  · intro svc node bag hp h
    simp only [handle_llm_node, hp, Bool.not_true, Bool.false_eq_true, if_false, h,
      Bool.not_false, if_true]
  · intro svc node bag hik h
    simp only [handle_stt_node, hik, Bool.not_true, Bool.false_eq_true, if_false, h,
      Bool.not_false, if_true]
  · intro svc node bag hik h
    simp only [handle_stt_node, hik, h, Bool.not_true, Bool.false_eq_true, if_false]

/-- C4 witness: the input-check theorem applied to concrete nodes and bags,
one instance per conjunct. -/
theorem handler_input_checks_witness :
    handle_deidentify_node noServices
      [("node_config", .dict [("input_key", .str "text")])] bagWithoutK
      = .error (.deidentifyMissingInput (.str "text"))
  ∧ handle_llm_node noServices
      [("node_config", .dict [("prompt", .str "p"), ("input_key", .str "text")])] bagWithoutK
      = .error (.llmMissingInput (.str "text"))
  ∧ handle_stt_node noServices sttFixtureNode ([] : PyDict)
      = .error (.sttMissingInput (.str "audio_file"))
  ∧ handle_stt_node noServices sttFixtureNode emptyAudioBag
      = .ok ([("audio_file", .bytes []), ("call_id", .str "1"),
              ("transcribed_text", Value.none)], .str "n2") :=
  ⟨handler_input_checks.1 noServices _ _ (by decide),
   handler_input_checks.2.1 noServices _ _ (by decide) (by decide),
   handler_input_checks.2.2.1 noServices _ _ (by decide) (by decide),
   handler_input_checks.2.2.2 noServices _ _ (by decide) (by decide)⟩

/-! ### Claim C5 -/

/-- C5: whenever `execute` returns a result on a non-empty graph (truthy
`start_node`), the execution path begins with the start node and its length
equals the number of handler invocations performed — the terminal node
included, because the loop appends the current id after the invocation and
before the exit check. -/
theorem execution_path_spec (svc : Services) (tree : PyDict) (sha : Option String)
    (fuel : Nat) (initial : PyDict) (h : BagHeap) (k : Nat) (res : ExecResult)
    (hE : execute svc tree sha fuel initial = some (h, k, .ok res))
    (hstart : truthy (dgetV tree "start_node") = true) :
    res.execution_path.head? = some (dgetV tree "start_node")
    ∧ res.execution_path.length = k := by
  unfold execute at hE
  split at hE
  · simp at hE
  · split at hE
    · exact Option.noConfusion hE
    · simp at hE
    · rename_i h0 count0 path0 heq
      obtain ⟨t, hp, hcnt, hhead⟩ := runLoop_path_inv svc _ fuel _ _ [] 0 _ _ _ heq
      obtain ⟨t', rfl⟩ := hhead hstart
      split at hE
      · simp at hE
      · simp only [Option.some.injEq, Prod.mk.injEq, Except.ok.injEq] at hE
        obtain ⟨rfl, rfl, rfl⟩ := hE
        subst hp
        constructor
        · simp
        · simp [hcnt]

/-- C5 witness: the path specification applied to a concrete successful
execution. -/
theorem execution_path_spec_witness :
    ({ status := .str "done", execution_path := [.str "n1"],
       final_output := prepare_final_output okBag } : ExecResult).execution_path.head?
        = some (dgetV exitOnlyTree "start_node")
  ∧ ({ status := .str "done", execution_path := [.str "n1"],
       final_output := prepare_final_output okBag } : ExecResult).execution_path.length = 1 :=
  execution_path_spec noServices exitOnlyTree (some "abc") 3 okBag
    { caller := okBag,
      work := dset (dset okBag "_exit" (.bool true)) "_exit_status" (.str "done") } 1
    { status := .str "done", execution_path := [.str "n1"],
      final_output := prepare_final_output okBag }
    rfl (by decide)

/-! ### Claim C6 -/

/-- C6, counterexample: on `loopTree` with a bag taking the false branch,
`execute` terminates — even though the inescapable self-loop `c` (an sql
node whose only successor is itself and from which the exit `e` is
unreachable) is reachable from `start_node` in the graph.  This refutes the
claimed "terminates if and only if no such cycle is reachable". -/
theorem termination_despite_reachable_cycle :
    execute noServices loopTree (some "abc") 5 avoidLoopBag
      = some ({ caller := avoidLoopBag,
                work := avoidLoopBag ++ [("_exit", .bool true), ("_exit_status", .str "done")] },
              2,
              .ok { status := .str "done",
                    execution_path := [.str "s", .str "e"],
                    final_output := avoidLoopBag })
  ∧ reachableWithin loopNodes 3 "s" "c" = true
  ∧ trapped loopNodes ["c"] = true
  ∧ successorIds loopNodes "c" = ["c"]
  ∧ reachableWithin loopNodes 3 "c" "e" = false := by
  refine ⟨rfl, by decide, by decide, rfl, by decide⟩

/-- C6 (amended): the loop has no visited-node tracking and no step limit:
once the traversal stands on a node of a trapped set (sql/condition nodes
all of whose successors stay in the set, so no exit or dead end can ever be
reached), no amount of fuel makes it return, i.e. `execute` diverges.  The
converse direction of the claim fails: a graph-reachable inescapable cycle
does not force divergence, because a data-dependent condition branch can
avoid it. -/
theorem trapped_cycle_divergence :
    (∀ svc nodes S c h path count, trapped nodes S = true → c ∈ S →
       truthy (dgetV h.work "_exit") = false →
       ∀ fuel, runLoop svc nodes fuel (.str c) h path count = Option.none)
  ∧ (∀ svc tree sha initial S c, trapped (asDict (dgetV tree "nodes")) S = true →
       dgetV tree "start_node" = .str c → c ∈ S →
       dmem initial "call_id" = true → truthy (dgetV initial "call_id") = true →
       truthy (dgetV initial "_exit") = false →
       ∀ fuel, execute svc tree sha fuel initial = Option.none) := by
  constructor
  · intro svc nodes S c h path count hT hc hex fuel
    exact runLoop_trapped_aux svc nodes S hT fuel c h path count hc hex
  · intro svc tree sha initial S c hT hstart hc hmem hcid hex fuel
    unfold execute
    rw [if_neg (by simp [hmem, hcid]), hstart,
      runLoop_trapped_aux svc _ S hT fuel c _ [] 0 hc hex]

/-- C6 witness: the divergence theorem applied to a graph whose start node is
an sql self-loop — `execute` returns nothing at fuel 7 (and at any fuel). -/
theorem trapped_cycle_divergence_witness :
    execute noServices selfLoopTree (some "abc") 7 enterLoopBag = Option.none :=
  trapped_cycle_divergence.2 noServices selfLoopTree (some "abc") enterLoopBag ["c"] "c"
    (by decide) rfl (by simp) (by decide) (by decide) (by decide) 7

/-! ### Claim C7 -/

/-- C7: a dangling node reference is not rejected at load time (the dangling
document validates successfully); traversal raises `nodeNotFound` exactly
when it stands on an id missing from the node map; on the dangling graph the
true branch aborts with that error and no result, while the false branch of
the same graph completes normally. -/
theorem dangling_reference_lazy :
    (load_tree_config (.ok danglingDoc) loadedExecutor).2 = .ok ()
  ∧ (∀ svc nodes fuel current h path count, truthy current = true →
       dmemVal nodes current = false →
       runLoop svc nodes (fuel + 1) current h path count
         = some (h, count, .error (.nodeNotFound current)))
  ∧ execute noServices danglingTree (some "abc") 5 enterLoopBag
      = some ({ caller := enterLoopBag, work := enterLoopBag }, 1,
              .error (.nodeNotFound (.str "ghost")))
  ∧ execute noServices danglingTree (some "abc") 5 avoidLoopBag
      = some ({ caller := avoidLoopBag,
                work := avoidLoopBag ++ [("_exit", .bool true), ("_exit_status", .str "done")] },
              2,
              .ok { status := .str "done",
                    execution_path := [.str "s", .str "e"],
                    final_output := avoidLoopBag }) := by
  refine ⟨rfl, ?_, rfl, rfl⟩
  intro svc nodes fuel current h path count htc hnm
  simp only [runLoop, htc, Bool.not_true, Bool.false_eq_true, if_false]
  rw [List.find?_eq_none.mpr (fun x hx hpx => List.any_eq_false.mp hnm x hx hpx)]

/-- C7 witness: the missing-node step applied to a concrete id absent from an
empty node map. -/
theorem dangling_reference_lazy_witness :
    runLoop noServices ([] : PyDict) 1 (.str "ghost") { caller := [], work := [] } [] 0
      = some ({ caller := [], work := [] }, 0, .error (.nodeNotFound (.str "ghost"))) :=
  dangling_reference_lazy.2.1 noServices [] 0 (.str "ghost")
    { caller := [], work := [] } [] 0 (by decide) (by decide)

/-! ### Claim C8 -/

/-- C8: `execute` never mutates the caller's mapping: whatever outcome it
returns (result or raised error), the caller's dictionary cell is exactly
the initial mapping — all handler writes went to the private copy made at
the start of `execute`. -/
theorem execute_no_caller_mutation (svc : Services) (tree : PyDict) (sha : Option String)
    (fuel : Nat) (initial : PyDict) (out : BagHeap × Nat × Except PyErr ExecResult)
    (hE : execute svc tree sha fuel initial = some out) :
    out.1.caller = initial := by
  unfold execute at hE
  split at hE
  · rw [← Option.some.inj hE]
  · split at hE
    · exact Option.noConfusion hE
    · rename_i h0 count0 e0 heq
      have hcall := runLoop_caller svc _ fuel _ _ [] 0 _ heq
      rw [← Option.some.inj hE]
      exact hcall
    · rename_i h0 count0 path0 heq
      have hcall := runLoop_caller svc _ fuel _ _ [] 0 _ heq
      split at hE
      · rw [← Option.some.inj hE]
        exact hcall
      · rw [← Option.some.inj hE]
        exact hcall

/-- C8 witness: the no-mutation theorem applied to a concrete run. -/
theorem execute_no_caller_mutation_witness :
    (({ caller := okBag,
        work := dset (dset okBag "_exit" (.bool true)) "_exit_status" (.str "done") } : BagHeap),
      1,
      (.ok { status := .str "done", execution_path := [.str "n1"],
             final_output := prepare_final_output okBag } : Except PyErr ExecResult)).1.caller
      = okBag :=
  execute_no_caller_mutation noServices exitOnlyTree (some "abc") 3 okBag _ rfl

/-! ### Claim C9 -/

/-- C9: a successful save check requires `job_submission_datetime` to be a
string accepted by `datetime.fromisoformat` (so its absence, emptiness, or
malformedness forces an error), and the check runs only after traversal: when
the loop completes normally, `execute` returns exactly the traversal's heap
and invocation count, with the outcome decided by `save_results_check` — an
error from it discards the already-built Execution Result. -/
theorem jsd_check_after_traversal :
    (∀ w sha, save_results_check w sha = .ok () →
       ∃ j, dgetV w "job_submission_datetime" = Value.str j
         ∧ (fromisoformat j).isSome = true)
  ∧ (∀ svc tree sha fuel initial h k path,
       dmem initial "call_id" = true → truthy (dgetV initial "call_id") = true →
       runLoop svc (asDict (dgetV tree "nodes")) fuel (dgetV tree "start_node")
           { caller := initial, work := initial } [] 0 = some (h, k, .ok path) →
       execute svc tree sha fuel initial
         = some (h, k,
             match save_results_check h.work sha with
             | .error e => .error e
             | .ok _ => .ok { status := dgetD h.work "_exit_status" (.str "success"),
                              execution_path := path,
                              final_output := prepare_final_output h.work })) := by
  constructor
  · intro w sha hok
    unfold save_results_check at hok
    split at hok
    · exact Except.noConfusion hok
    · split at hok
      · exact Except.noConfusion hok
      · split at hok
        · exact Except.noConfusion hok
        · split at hok
          · rename_i s hjs
            split at hok
            · rename_i hsome
              exact ⟨s, hjs, hsome⟩
            · exact Except.noConfusion hok
          · exact Except.noConfusion hok
  · intro svc tree sha fuel initial h k path hmem hcid hrun
    unfold execute
    rw [if_neg (by simp [hmem, hcid]), hrun]
    dsimp only
    split <;> rfl

/-- C9 witness: on the exit-only graph with a bag lacking
`job_submission_datetime`, traversal itself completes (path `["n1"]`, one
invocation) and `execute` then raises the save-step error, returning no
result; and a conforming bag satisfies the extracted validity condition. -/
theorem jsd_check_after_traversal_witness :
    execute noServices exitOnlyTree (some "abc") 2 bagNoJsd
      = some ({ caller := bagNoJsd,
                work := dset (dset bagNoJsd "_exit" (.bool true)) "_exit_status" (.str "done") },
              1, .error .saveJsdRequired)
  ∧ ∃ j, dgetV okBag "job_submission_datetime" = Value.str j
      ∧ (fromisoformat j).isSome = true := by
  constructor
  · have h2 := jsd_check_after_traversal.2 noServices exitOnlyTree (some "abc") 2 bagNoJsd
      { caller := bagNoJsd,
        work := dset (dset bagNoJsd "_exit" (.bool true)) "_exit_status" (.str "done") }
      1 [.str "n1"] rfl rfl rfl
    exact h2
  · exact jsd_check_after_traversal.1
      [("call_id", .str "1"), ("job_submission_datetime", .str "2024-01-15T10:30:00")]
      (some "abc") rfl |>.imp (fun j hj => ⟨hj.1, hj.2⟩)

/-! ### Claim C10 -/

/-- C10: constructing a `TreeExecutor` with `commit_sha = None` raises
`ValueError` before the configuration source is even examined — for any
path, local file or URL alike; with a non-`None` `commit_sha` the
constructor immediately loads the configuration: a parse failure propagates,
and a successful construction holds the validated tree (truthy `start_node`
and `nodes`) of the supplied document. -/
theorem construct_requires_commit_sha :
    (∀ path parsed, TreeExecutor.construct path Option.none parsed
        = .error .commitShaRequired)
  ∧ (∀ path s e, TreeExecutor.construct path (some s) (.error e) = .error e)
  ∧ (∀ path s config self',
       TreeExecutor.construct path (some s) (.ok config) = .ok self' →
       self'.tree_config = asDict (dgetV config "tree")
       ∧ truthy (dgetV self'.tree_config "start_node") = true
       ∧ truthy (dgetV self'.tree_config "nodes") = true) := by
  refine ⟨fun _ _ => rfl, fun _ _ _ => rfl, ?_⟩
  intro path s config self' hE
  unfold TreeExecutor.construct at hE
  dsimp only at hE
  split at hE
  · exact Except.noConfusion hE
  · rename_i self0 u hload
    obtain rfl := Except.ok.inj hE
    have h1 : (load_tree_config (.ok config)
        { tree_config_path := path, commit_sha := some s, tree_config := [] }).1.tree_config
        = asDict (dgetV config "tree") :=
      load_ok_tree_config _ config
    have h2 : (load_tree_config (.ok config)
        { tree_config_path := path, commit_sha := some s, tree_config := [] }).2 = .ok () := by
      rw [hload]
    rw [hload] at h1
    obtain ⟨hs, hn⟩ := (load_ok_iff
      { tree_config_path := path, commit_sha := some s, tree_config := [] } config).mp h2
    exact ⟨h1, h1 ▸ hs, h1 ▸ hn⟩

/-- C10 witness: the constructor theorem applied to a local path with a
missing `commit_sha`, a parse failure, and a successful load. -/
theorem construct_requires_commit_sha_witness :
    TreeExecutor.construct "local/decision_tree.yaml" Option.none (.ok danglingDoc)
      = .error .commitShaRequired
  ∧ TreeExecutor.construct "local/decision_tree.yaml" (some "abc")
      (.error (.parseError "bad yaml")) = .error (.parseError "bad yaml")
  ∧ ({ tree_config_path := "local/decision_tree.yaml", commit_sha := some "abc",
       tree_config := danglingTree } : TreeExecutor).tree_config
      = asDict (dgetV danglingDoc "tree")
  ∧ truthy (dgetV danglingTree "start_node") = true :=
  ⟨construct_requires_commit_sha.1 "local/decision_tree.yaml" (.ok danglingDoc),
   construct_requires_commit_sha.2.1 "local/decision_tree.yaml" "abc"
     (.parseError "bad yaml"),
   (construct_requires_commit_sha.2.2 "local/decision_tree.yaml" "abc" danglingDoc _
     rfl).1,
   (construct_requires_commit_sha.2.2 "local/decision_tree.yaml" "abc" danglingDoc _
     rfl).2.1⟩

example : pyEq (.bool true) (.int 1) = true := by decide
example : pyEq (.str "a") (.str "b") = false := by decide
example : pyEq .none .none = true := by decide
example : truthy (.bytes []) = false := by decide
example : dgetV [("a", .int 3)] "a" = .int 3 := rfl
example : dgetVal [("a", .int 3)] (.str "a") = .int 3 := rfl
example : dset [("a", .int 3), ("b", .int 4)] "a" (.int 9)
    = [("a", .int 9), ("b", .int 4)] := rfl

end LogicFlow
